import Mathlib

/-!
Shallow embedding of the core logic of the flair-mcp service:
the retrying JSON:API request executor, the paginated fetch engine,
the OAuth token manager, the per-fetch dedup pass, the session sweep,
the vent write-then-verify loop and the temperature-based vent filter,
together with theorems settling the specification claims about them.
-/

namespace FlairMcp

/-- JSON:API resource as far as the dedup pass is concerned: an id plus an
opaque body standing for the rest of the resource payload
(embedding of the JsonApiResource objects from src/flairTypes.ts as consumed
by dedupeResourcesById in src/flairApi.ts). -/
structure JsonApiResource where
  id : String
  body : Nat
deriving DecidableEq, Repr

/-- Loop of dedupeResourcesById (src/flairApi.ts lines 553-568): walk the
resources, keep an item when its id was not seen before, count a duplicate
otherwise.  The pair is (unique, duplicates). -/
def dedupeGo (seen : List String) : List JsonApiResource → List JsonApiResource × Nat
  | [] => ([], 0)
  | item :: rest =>
    if item.id ∈ seen then
      let r := dedupeGo seen rest
      (r.1, r.2 + 1)
    else
      let r := dedupeGo (item.id :: seen) rest
      (item :: r.1, r.2)

/-- Embedding of dedupeResourcesById (src/flairApi.ts lines 553-568): the
Set of seen ids starts empty, unique starts empty, duplicates at 0. -/
def dedupeResourcesById (resources : List JsonApiResource) :
    List JsonApiResource × Nat :=
  dedupeGo [] resources

/-- Modelled from the claim wording only (refinement reference): keeping the
first occurrence of each id in input order means taking the head and then
recursively keeping first occurrences among the later items whose id differs. -/
def specKeepFirstById : List JsonApiResource → List JsonApiResource
  | [] => []
  | item :: rest =>
    item :: specKeepFirstById (rest.filter (fun r => !(r.id == item.id)))
termination_by l => l.length
decreasing_by
  simp only [List.length_cons]
  exact Nat.lt_succ_of_le (List.length_filter_le _ _)

/-- Per-session state kept in the session table (SessionState from the HTTP
server module): the lastSeenAt timestamp in ms, plus two flags describing
whether the transport.close() respectively server.close() calls of this
session would throw when the sweep tries to close it. -/
structure SessionState where
  lastSeenAt : Int
  transportCloseFails : Bool
  serverCloseFails : Bool
deriving DecidableEq, Repr

/-- Session table: the Map from session id to session state. -/
abbrev SessionTable := List (String × SessionState)

/-- Result of awaiting one of the close() calls: throws when the
corresponding flag is set.  The sweep wraps each in try/catch and ignores
the outcome. -/
def tryCloseStep (fails : Bool) : Except String Unit :=
  if fails then Except.error "close failed" else Except.ok ()

/-- Embedding of closeSession from the HTTP server module: look the session
up; if absent return; otherwise delete it from the table first and then
attempt transport.close() and server.close(), each inside a try/catch whose
failure is ignored, so the deletion survives a throwing close. -/
def closeSession (table : SessionTable) (sessionId : String) : SessionTable :=
  match table.find? (fun e => e.1 == sessionId) with
  | none => table
  | some s =>
    let afterDelete := table.eraseP (fun e => e.1 == sessionId)
    let _ignored1 := tryCloseStep s.2.transportCloseFails
    let _ignored2 := tryCloseStep s.2.serverCloseFails
    afterDelete

/-- Embedding of cleanupStaleSessions from the HTTP server module: compute
the cutoff as now minus the TTL and close every session whose lastSeenAt is
strictly before the cutoff, iterating over the table entries. -/
def cleanupStaleSessions (nowMs ttlMs : Int) (table : SessionTable) : SessionTable :=
  let cutoff := nowMs - ttlMs
  table.foldl
    (fun acc e => if e.2.lastSeenAt < cutoff then closeSession acc e.1 else acc)
    table

/-- Outcome of one attempt of doRequest as observed by requestJsonApi
(src/flairApi.ts lines 1470-1529): a response with ok = true carrying the
parsed document, a response with ok = false carrying the HTTP status code
and the parsed document, or a thrown network/timeout error. -/
inductive AttemptOutcome (D : Type) where
  | success (doc : D)
  | httpFailure (statusCode : Nat) (doc : D)
  | networkFailure
deriving DecidableEq, Repr

/-- Embedding of the FlairApiError fields relevant to the executor
(src/flairApi.ts lines 465-474): optional status code, optional details
document, and the retryable flag. -/
structure FlairApiErr (D : Type) where
  statusCode : Option Nat
  details : Option D
  retryable : Bool
deriving DecidableEq, Repr

/-- Retry classification of a failed HTTP response in requestJsonApi
(src/flairApi.ts line 1496): status 429 or any 5xx is retryable. -/
def isRetryableStatus (statusCode : Nat) : Bool :=
  statusCode == 429 || decide (statusCode ≥ 500)

/-- Loop of requestJsonApi (src/flairApi.ts lines 1483-1528) over a script
of attempt outcomes, one per iteration of the while loop.  Returns none when
the script is too short for the execution (never the case in the theorems
below).  On a response: success returns the document; a failure status that
is retryable while attempt < retryMax sleeps and retries, otherwise a
FlairApiError with the status, the response document and the retryable flag
is thrown.  A thrown network error is always retryable and is retried while
attempt < retryMax, otherwise a FlairApiError without status is thrown. -/
def requestJsonApiGo {D : Type} (retryMax : Nat) :
    Nat → List (AttemptOutcome D) → Option (Except (FlairApiErr D) D)
  | _, [] => none
  | attempt, outcome :: rest =>
    match outcome with
    | .success doc => some (Except.ok doc)
    | .httpFailure status doc =>
      if isRetryableStatus status && decide (attempt < retryMax) then
        requestJsonApiGo retryMax (attempt + 1) rest
      else
        some (Except.error ⟨some status, some doc, isRetryableStatus status⟩)
    | .networkFailure =>
      if attempt < retryMax then
        requestJsonApiGo retryMax (attempt + 1) rest
      else
        some (Except.error ⟨none, none, true⟩)

/-- Embedding of requestJsonApi: the attempt counter starts at 0. -/
def requestJsonApi {D : Type} (retryMax : Nat) (outcomes : List (AttemptOutcome D)) :
    Option (Except (FlairApiErr D) D) :=
  requestJsonApiGo retryMax 0 outcomes

/-- One upstream page as consumed by listResources: the data array and the
optional next link (already extracted by extractNextLink; links are
identified by a Nat). -/
structure Page (R : Type) where
  data : List R
  next : Option Nat
deriving DecidableEq, Repr

/-- Pagination loop of listResources (src/flairApi.ts lines 708-725): while
a next link remains and (no maxItems or fewer than maxItems collected),
stop on a previously visited link, otherwise fetch the page, append its
data, count the page, stop when 20 pages were fetched, and continue with
the new next link. -/
def listResourcesGo {R : Type} (fetch : Nat → Page R) (maxItems : Option Nat)
    (data : List R) (visitedNext : List Nat) (pagesFetched : Nat) :
    Option Nat → List R
  | none => data
  | some link =>
    if maxItems.elim true (fun m => decide (data.length < m)) then
      if link ∈ visitedNext then data
      else
        let nextPage := fetch link
        let data2 := data ++ nextPage.data
        let pages2 := pagesFetched + 1
        if h : pages2 ≥ 20 then data2
        else listResourcesGo fetch maxItems data2 (link :: visitedNext) pages2 nextPage.next
    else data
termination_by _ => 20 - pagesFetched
decreasing_by
  simp only [not_le] at h
  omega

/-- Raw collected data of listResources before truncation: first page plus
the pagination loop, with pagesFetched starting at 1 and the visited set
empty (src/flairApi.ts lines 700-725). -/
def listResourcesRaw {R : Type} (fetch : Nat → Page R) (firstPage : Page R)
    (maxItems : Option Nat) : List R :=
  listResourcesGo fetch maxItems firstPage.data [] 1 firstPage.next

/-- Embedding of listResources (data projection, src/flairApi.ts lines
686-737): maxItems is kept only when positive; after the loop the data is
truncated to maxItems when it is longer. -/
def listResources {R : Type} (fetch : Nat → Page R) (firstPage : Page R)
    (maxItemsOption : Option Nat) : List R :=
  let maxItems := match maxItemsOption with
    | some m => if m > 0 then some m else none
    | none => none
  let data := listResourcesRaw fetch firstPage maxItems
  match maxItems with
  | some m => if data.length > m then data.take m else data
  | none => data

/-- TokenRecord from src/flairAuth.ts. -/
structure TokenRecord where
  accessToken : String
  tokenType : String
  expiresAtMs : Int
  issuedAtMs : Int
deriving DecidableEq, Repr

/-- Embedding of FlairTokenManager.tokenValid (src/flairAuth.ts lines
24-27): false without a cached token, otherwise now plus the skew margin in
ms must still be strictly before the expiry. -/
def tokenValid (skewSec : Int) (token : Option TokenRecord) (nowMs : Int) : Bool :=
  match token with
  | none => false
  | some t => decide (nowMs + skewSec * 1000 < t.expiresAtMs)

/-- Mutable state of a FlairTokenManager together with an instrumentation
counter: the cached token, the id of the in-flight refresh promise if any,
and the number of upstream token requests issued so far (each call of
refreshToken issues exactly one upstream request). -/
structure MgrState where
  token : Option TokenRecord
  inflight : Option Nat
  upstreamRequests : Nat
deriving DecidableEq, Repr

/-- What a caller of getAccessToken observes at its first suspension point:
either the cached token value returned synchronously, or the id of the
refresh promise the caller proceeds to await. -/
inductive TokenObs where
  | cached (value : String)
  | awaitRefresh (refreshId : Nat)
deriving DecidableEq, Repr

/-- Synchronous prefix of getAccessToken (src/flairAuth.ts lines 29-39),
which runs atomically on the event loop up to the first await: return the
cached token when valid; otherwise reuse the in-flight refresh promise if
one exists, else start a new refresh (issuing one upstream token request)
and store it as the in-flight promise; in either case the caller then
awaits that promise. -/
def getAccessTokenEnter (skewSec nowMs : Int) (s : MgrState) : MgrState × TokenObs :=
  if tokenValid skewSec s.token nowMs then
    (s, TokenObs.cached (match s.token with | some t => t.accessToken | none => ""))
  else
    match s.inflight with
    | some refreshId => (s, TokenObs.awaitRefresh refreshId)
    | none =>
      ({ s with inflight := some s.upstreamRequests,
                upstreamRequests := s.upstreamRequests + 1 },
       TokenObs.awaitRefresh s.upstreamRequests)

/-- A burst of n concurrent callers entering getAccessToken back to back on
the event loop, before the in-flight refresh settles: each runs the
synchronous prefix in turn.  Returns the final state and each caller's
observation. -/
def arrivalsBurst (skewSec nowMs : Int) : Nat → MgrState → MgrState × List TokenObs
  | 0, s => (s, [])
  | n + 1, s =>
    let first := getAccessTokenEnter skewSec nowMs s
    let rest := arrivalsBurst skewSec nowMs n first.1
    (rest.1, first.2 :: rest.2)

/-- Cache state of the token manager as seen by one sequential caller. -/
structure AuthState where
  token : Option TokenRecord
deriving DecidableEq, Repr

/-- Sequential (single-caller) run of getAccessToken (src/flairAuth.ts
lines 29-44 together with refreshToken lines 55-123), parameterized by the
outcome the refresh would have: when the cached token is valid it is
returned with no refresh performed; otherwise the refresh runs, either
replacing the cached token on success or leaving it untouched and
propagating the error on failure.  The Bool reports whether a refresh was
performed. -/
def getAccessTokenRun (skewSec nowMs : Int) (refreshOutcome : Except String TokenRecord)
    (s : AuthState) : Except String String × AuthState × Bool :=
  if tokenValid skewSec s.token nowMs then
    (Except.ok (match s.token with | some t => t.accessToken | none => ""), s, false)
  else
    match refreshOutcome with
    | Except.ok tok => (Except.ok tok.accessToken, ⟨some tok⟩, true)
    | Except.error e => (Except.error e, s, true)

/-- Outcome of one verification poll in setVentPercentOpenAndVerify: the
getResource call either succeeds and yields the percent-open attribute as
parsed by toNumber (none when absent or not numeric), or throws with a
message. -/
inductive PollOutcome where
  | resourceValue (percentOpen : Option Int)
  | pollFailure (message : String)
deriving DecidableEq, Repr

/-- Operations issued against the upstream API by the write-then-verify
control loop. -/
inductive VentOp where
  | writeVentState (ventId : String) (percentOpen : Int)
  | pollVent (ventId : String)
deriving DecidableEq, Repr

/-- Whether an operation is the vent-state write. -/
def VentOp.isWrite : VentOp → Bool
  | .writeVentState _ _ => true
  | .pollVent _ => false

/-- VentPercentOpenVerificationResult (src/flairApi.ts lines 454-463),
without the wall-clock durationMs field. -/
structure VentVerifyResult (C : Type) where
  ok : Bool
  ventId : String
  expectedPercentOpen : Int
  actualPercentOpen : Option Int
  attemptsUsed : Nat
  commandResponse : C
  errorMsg : Option String
deriving DecidableEq, Repr

/-- Default error string used when verification ends with no recorded
transient error (src/flairApi.ts line 892). -/
def ventVerifyDefaultError : String :=
  "Expected vent percent-open value was not observed after all verification attempts"

/-- Polling loop of setVentPercentOpenAndVerify (src/flairApi.ts lines
852-893): for attempt = attempt0 .. attempts, poll the vent; a numeric
observation updates lastActual and, when equal to the commanded value,
returns ok = true with attemptsUsed = attempt; a non-numeric observation
resets lastActual to none; a thrown poll failure records lastError.  When
the budget is exhausted the result is ok = false with the accumulated
lastActual and lastError (or the default message).  Also returns the list
of poll operations issued. -/
def ventVerifyGo {C : Type} (polls : Nat → PollOutcome) (ventId : String)
    (percentOpen : Int) (attempts : Nat) (commandResponse : C)
    (attempt : Nat) (lastActual : Option Int) (lastError : Option String) :
    VentVerifyResult C × List VentOp :=
  if attempt ≤ attempts then
    let op := VentOp.pollVent ventId
    match polls attempt with
    | .resourceValue (some actual) =>
      if actual = percentOpen then
        ({ ok := true, ventId, expectedPercentOpen := percentOpen,
           actualPercentOpen := some actual, attemptsUsed := attempt,
           commandResponse, errorMsg := none }, [op])
      else
        let r := ventVerifyGo polls ventId percentOpen attempts commandResponse
          (attempt + 1) (some actual) lastError
        (r.1, op :: r.2)
    | .resourceValue none =>
      let r := ventVerifyGo polls ventId percentOpen attempts commandResponse
        (attempt + 1) none lastError
      (r.1, op :: r.2)
    | .pollFailure msg =>
      let r := ventVerifyGo polls ventId percentOpen attempts commandResponse
        (attempt + 1) lastActual (some msg)
      (r.1, op :: r.2)
  else
    ({ ok := false, ventId, expectedPercentOpen := percentOpen,
       actualPercentOpen := lastActual, attemptsUsed := attempts,
       commandResponse,
       errorMsg := some (lastError.getD ventVerifyDefaultError) }, [])
termination_by attempts + 1 - attempt

/-- Embedding of setVentPercentOpenAndVerify (src/flairApi.ts lines
838-894): issue the write once (its response is commandResponse), then run
the polling loop starting at attempt 1 with no observation and no error
recorded.  Returns the result together with the full operation trace. -/
def setVentPercentOpenAndVerify {C : Type} (polls : Nat → PollOutcome)
    (ventId : String) (percentOpen : Int) (attempts : Nat) (commandResponse : C) :
    VentVerifyResult C × List VentOp :=
  let r := ventVerifyGo polls ventId percentOpen attempts commandResponse 1 none none
  (r.1, VentOp.writeVentState ventId percentOpen :: r.2)

/-- Temperature comparison operator of listVentsByRoomTemperature. -/
inductive TempOp where
  | lt | lte | gt | gte | between
deriving DecidableEq, Repr

/-- Vent state filter of listVentsByRoomTemperature. -/
inductive VentStateFilter where
  | vopen | vclosed | vany
deriving DecidableEq, Repr

/-- Options record of listVentsByRoomTemperature (src/flairApi.ts lines
1292-1310), restricted to the fields the filtering logic reads; temperatures
are rationals (the embedding of the numeric computation). -/
structure TempFilterOptions where
  temperatureOperator : Option TempOp
  thresholdTempC : Option ℚ
  thresholdTempF : Option ℚ
  minTempC : Option ℚ
  minTempF : Option ℚ
  maxTempC : Option ℚ
  maxTempF : Option ℚ
  ventState : Option VentStateFilter
  minPercentOpen : Option ℚ
  maxPercentOpen : Option ℚ
  includeUnknownTemperature : Option Bool
deriving DecidableEq, Repr

/-- One row produced by listVentsWithRoomTemperatures as read by the filter:
the percent-open attribute when numeric, the derived is_open flag, and the
room temperature in Celsius when known, plus an id identifying the vent. -/
structure VentRow where
  id : Nat
  percent_open : Option ℚ
  is_open : Option Bool
  room_temperature_c : Option ℚ
deriving DecidableEq, Repr

/-- Embedding of the local toCelsius helper (src/flairApi.ts lines
1311-1315): a Celsius value wins; otherwise Fahrenheit is converted via
(F - 32) * (5 / 9); otherwise none. -/
def toCelsiusPref (tempC tempF : Option ℚ) : Option ℚ :=
  match tempC with
  | some c => some c
  | none =>
    match tempF with
    | some f => some ((f - 32) * (5 / 9))
    | none => none

/-- Embedding of toFahrenheit (src/flairApi.ts line 526). -/
def toFahrenheit (celsius : ℚ) : ℚ :=
  celsius * 9 / 5 + 32

/-- Rendering of Number(x.toFixed(2)): round to two decimal places. -/
def toFixed2 (q : ℚ) : ℚ :=
  (round (q * 100) : ℤ) / 100

/-- Summary block of the listVentsByRoomTemperature result (src/flairApi.ts
lines 1378-1391); compactObject dropping undefined fields is rendered by
Option. -/
structure TempFilterSummary where
  matched_vents : Nat
  temperature_operator : TempOp
  threshold_c : Option ℚ
  threshold_f : Option ℚ
  min_temp_c : Option ℚ
  min_temp_f : Option ℚ
  max_temp_c : Option ℚ
  max_temp_f : Option ℚ
  vent_state : VentStateFilter
  min_percent_open : ℚ
  max_percent_open : Option ℚ
  include_unknown_temperature : Bool
deriving DecidableEq, Repr

/-- Result of listVentsByRoomTemperature: selected vents plus summary. -/
structure TempFilterOutput where
  vents : List VentRow
  summary : TempFilterSummary
deriving DecidableEq, Repr

/-- matchesTemp of listVentsByRoomTemperature (src/flairApi.ts lines
1350-1358); for between the bounds are guaranteed present by validation
(the source casts them), rendered by getD 0. -/
def matchesTemp (operator : TempOp) (thresholdC minC maxC : Option ℚ) (tempC : ℚ) : Bool :=
  match operator with
  | .between => decide (tempC ≥ minC.getD 0) && decide (tempC ≤ maxC.getD 0)
  | .lt => decide (tempC < thresholdC.getD 0)
  | .lte => decide (tempC ≤ thresholdC.getD 0)
  | .gt => decide (tempC > thresholdC.getD 0)
  | .gte => decide (tempC ≥ thresholdC.getD 0)

/-- Post-validation part of listVentsByRoomTemperature (src/flairApi.ts
lines 1335-1393): defaulting of ventState, minPercentOpen,
includeUnknownTemperature, the per-vent predicate, and the summary. -/
def tempFilterCore (operator : TempOp) (thresholdC minC maxC : Option ℚ)
    (ventStateOpt : Option VentStateFilter) (minPercentOpenOpt maxPercentOpenOpt : Option ℚ)
    (includeUnknownOpt : Option Bool) (rows : List VentRow) : TempFilterOutput :=
  let ventState := ventStateOpt.getD VentStateFilter.vopen
  let minPercentOpen : ℚ := match minPercentOpenOpt with
    | some v => v
    | none => if ventState = VentStateFilter.vopen then 1 else 0
  let maxPercentOpen := maxPercentOpenOpt
  let includeUnknownTemperature := includeUnknownOpt.getD false
  let vents := rows.filter (fun vent =>
    let percentOpen := vent.percent_open
    let isOpen : Bool := match percentOpen with
      | some p => decide (p > 0)
      | none => vent.is_open == some true
    if ventState = VentStateFilter.vopen && !isOpen then false
    else if ventState = VentStateFilter.vclosed && isOpen then false
    else
      let percentOk : Bool := match percentOpen with
        | some p =>
          if p < minPercentOpen then false
          else match maxPercentOpen with
            | some m => decide (p ≤ m)
            | none => true
        | none => true
      if !percentOk then false
      else match vent.room_temperature_c with
        | none => includeUnknownTemperature
        | some tempC => matchesTemp operator thresholdC minC maxC tempC)
  { vents := vents
    summary :=
      { matched_vents := vents.length
        temperature_operator := operator
        threshold_c := thresholdC.map toFixed2
        threshold_f := thresholdC.map (fun c => toFixed2 (toFahrenheit c))
        min_temp_c := minC.map toFixed2
        min_temp_f := minC.map (fun c => toFixed2 (toFahrenheit c))
        max_temp_c := maxC.map toFixed2
        max_temp_f := maxC.map (fun c => toFixed2 (toFahrenheit c))
        vent_state := ventState
        min_percent_open := minPercentOpen
        max_percent_open := maxPercentOpen
        include_unknown_temperature := includeUnknownTemperature } }

/-- Embedding of listVentsByRoomTemperature (src/flairApi.ts lines
1292-1394), with the vent rows fetched by listVentsWithRoomTemperatures
supplied as an argument: operator defaults to lt; bounds are converted to
Celsius preferring the Celsius input; for between both bounds are required
and auto-swapped when reversed; other operators require the threshold;
validation failure throws before the rows are consulted. -/
def listVentsByRoomTemperature (opts : TempFilterOptions) (rows : List VentRow) :
    Except String TempFilterOutput :=
  let operator := opts.temperatureOperator.getD TempOp.lt
  let thresholdC := toCelsiusPref opts.thresholdTempC opts.thresholdTempF
  let minTempC0 := toCelsiusPref opts.minTempC opts.minTempF
  let maxTempC0 := toCelsiusPref opts.maxTempC opts.maxTempF
  if operator = TempOp.between then
    match minTempC0, maxTempC0 with
    | some a, some b =>
      let bounds := if a > b then (b, a) else (a, b)
      Except.ok (tempFilterCore operator thresholdC (some bounds.1) (some bounds.2)
        opts.ventState opts.minPercentOpen opts.maxPercentOpen
        opts.includeUnknownTemperature rows)
    | _, _ =>
      Except.error
        "For temperature_operator=between, provide min_temp_c/min_temp_f and max_temp_c/max_temp_f"
  else
    match thresholdC with
    | none => Except.error "Provide threshold_temp_c or threshold_temp_f for temperature filtering"
    | some _ => Except.ok (tempFilterCore operator thresholdC minTempC0 maxTempC0
        opts.ventState opts.minPercentOpen opts.maxPercentOpen
        opts.includeUnknownTemperature rows)

/-- Options with the two between bounds exchanged (both units). -/
def swapBetweenBounds (o : TempFilterOptions) : TempFilterOptions :=
  { o with
    minTempC := o.maxTempC
    minTempF := o.maxTempF
    maxTempC := o.minTempC
    maxTempF := o.minTempF }

/-- Options with every Fahrenheit input that is shadowed by a Celsius input
for the same bound removed. -/
def eraseShadowedF (o : TempFilterOptions) : TempFilterOptions :=
  { o with
    thresholdTempF := if o.thresholdTempC.isSome then none else o.thresholdTempF
    minTempF := if o.minTempC.isSome then none else o.minTempF
    maxTempF := if o.maxTempC.isSome then none else o.maxTempF }

/-- Settlement of the awaited refresh promise as seen by one caller: a
cached observation already has its value; a waiting caller receives the
shared refresh outcome (token value on success, the error on failure). -/
def awaitResult (refreshOutcome : Except String TokenRecord) : TokenObs → Except String String
  | .cached v => Except.ok v
  | .awaitRefresh _ => refreshOutcome.map (fun t => t.accessToken)

/-- Value observed by a successful poll (none for a throwing poll). -/
def pollValue : PollOutcome → Option (Option Int)
  | .resourceValue v => some v
  | .pollFailure _ => none

/-- Error message of a throwing poll (none for a successful poll). -/
def pollErrMsg : PollOutcome → Option String
  | .resourceValue _ => none
  | .pollFailure m => some m

/-- The outcomes of polls a through b, in order. -/
def pollsList (polls : Nat → PollOutcome) (a b : Nat) : List PollOutcome :=
  (List.range (b + 1 - a)).map (fun j => polls (a + j))

/-- Accumulator semantics of the lastActualPercentOpen variable over a run
of polls: every successful poll replaces the accumulator with its observed
value (numeric or none); throwing polls leave it alone. -/
def lastNumericObservation : List PollOutcome → Option Int → Option Int
  | [], acc => acc
  | .resourceValue v :: rest, _ => lastNumericObservation rest v
  | .pollFailure _ :: rest, acc => lastNumericObservation rest acc

/-- Accumulator semantics of the lastError variable over a run of polls:
every throwing poll replaces the accumulator with its message; successful
polls leave it alone. -/
def lastPollError : List PollOutcome → Option String → Option String
  | [], acc => acc
  | .resourceValue _ :: rest, acc => lastPollError rest acc
  | .pollFailure m :: rest, _ => lastPollError rest (some m)

/-! Lemmas about the dedup pass. -/

theorem dedupeGo_fst_eq_keepFirst (xs : List JsonApiResource) :
    ∀ seen : List String,
      (dedupeGo seen xs).1 =
        specKeepFirstById (xs.filter (fun r => decide (r.id ∉ seen))) := by
  induction xs with
  | nil => intro seen; simp [dedupeGo, specKeepFirstById]
  | cons x rest ih =>
    intro seen
    by_cases h : x.id ∈ seen
    · simp only [dedupeGo, if_pos h, List.filter_cons, decide_eq_true_eq]
      rw [if_neg (by simp [h])]
      exact ih seen
    · simp only [dedupeGo, if_neg h, List.filter_cons]
      rw [if_pos (by simp [h])]
      rw [specKeepFirstById]
      rw [List.filter_filter]
      rw [ih (x.id :: seen)]
      congr 2
      apply List.filter_congr
      intro r _
      by_cases hrx : r.id = x.id <;> simp [List.mem_cons, not_or, And.comm, hrx]

theorem dedupeGo_count (xs : List JsonApiResource) :
    ∀ seen : List String,
      (dedupeGo seen xs).1.length + (dedupeGo seen xs).2 = xs.length := by
  induction xs with
  | nil => intro seen; simp [dedupeGo]
  | cons x rest ih =>
    intro seen
    by_cases h : x.id ∈ seen
    · simp only [dedupeGo, if_pos h]
      have := ih seen
      simp only [List.length_cons]
      omega
    · simp only [dedupeGo, if_neg h, List.length_cons]
      have := ih (x.id :: seen)
      omega

theorem dedupeGo_fst_fresh (xs : List JsonApiResource) :
    ∀ seen : List String,
      (∀ r ∈ (dedupeGo seen xs).1, r.id ∉ seen) ∧
        ((dedupeGo seen xs).1.map (fun r => r.id)).Nodup := by
  induction xs with
  | nil => intro seen; simp [dedupeGo]
  | cons x rest ih =>
    intro seen
    by_cases h : x.id ∈ seen
    · simpa only [dedupeGo, if_pos h] using ih seen
    · simp only [dedupeGo, if_neg h]
      obtain ⟨hfresh, hnodup⟩ := ih (x.id :: seen)
      refine ⟨?_, ?_⟩
      · intro r hr
        rcases List.mem_cons.mp hr with rfl | hr
        · exact h
        · exact fun hmem => hfresh r hr (List.mem_cons_of_mem _ hmem)
      · simp only [List.map_cons, List.nodup_cons]
        refine ⟨?_, hnodup⟩
        intro hmem
        obtain ⟨r, hr, hid⟩ := List.mem_map.mp hmem
        exact hfresh r hr (hid ▸ List.mem_cons_self _ _)

theorem dedupeGo_of_fresh_nodup (xs : List JsonApiResource) :
    ∀ seen : List String, (∀ r ∈ xs, r.id ∉ seen) →
      (xs.map (fun r => r.id)).Nodup → dedupeGo seen xs = (xs, 0) := by
  induction xs with
  | nil => intro seen _ _; simp [dedupeGo]
  | cons x rest ih =>
    intro seen hfresh hnodup
    have hx : x.id ∉ seen := hfresh x (List.mem_cons_self _ _)
    simp only [dedupeGo, if_neg hx]
    have hrest : ∀ r ∈ rest, r.id ∉ x.id :: seen := by
      intro r hr
      simp only [List.mem_cons, not_or]
      constructor
      · intro hEq
        have : x.id ∈ rest.map (fun r => r.id) := hEq ▸ List.mem_map_of_mem _ hr
        exact (List.nodup_cons.mp (by simpa using hnodup)).1 this
      · exact hfresh r (List.mem_cons_of_mem _ hr)
    have := ih (x.id :: seen) hrest (List.nodup_cons.mp (by simpa using hnodup)).2
    rw [this]

/-- Claim C6: dedupeResourcesById is idempotent (rerunning it on its own
unique output returns that output with zero duplicates), it keeps the first
occurrence of each id in input order, and it accounts for every input item
(kept plus dropped counts sum to the input length), never raising an
error. -/
theorem dedupeResourcesById_idempotent_first_occurrence (xs : List JsonApiResource) :
    dedupeResourcesById ((dedupeResourcesById xs).1) = ((dedupeResourcesById xs).1, 0) ∧
      (dedupeResourcesById xs).1 = specKeepFirstById xs ∧
      (dedupeResourcesById xs).1.length + (dedupeResourcesById xs).2 = xs.length := by
  refine ⟨?_, ?_, dedupeGo_count xs []⟩
  · obtain ⟨hfresh, hnodup⟩ := dedupeGo_fst_fresh xs []
    exact dedupeGo_of_fresh_nodup _ [] (fun r hr => by simp) hnodup
  · have := dedupeGo_fst_eq_keepFirst xs []
    simpa [dedupeResourcesById] using this

/-! Lemmas about the session sweep. -/

theorem closeSession_eq_eraseP (table : SessionTable) (sessionId : String) :
    closeSession table sessionId = table.eraseP (fun e => e.1 == sessionId) := by
  unfold closeSession
  cases hfind : table.find? (fun e => e.1 == sessionId) with
  | none =>
    have := List.find?_eq_none.mp hfind
    exact (List.eraseP_of_forall_not (by simpa using this)).symm
  | some s => rfl

theorem eraseP_key_eq_filter (k : String) :
    ∀ table : SessionTable, (table.map Prod.fst).Nodup →
      table.eraseP (fun e => e.1 == k) = table.filter (fun e => !(e.1 == k)) := by
  intro table
  induction table with
  | nil => intro _; rfl
  | cons e es ih =>
    intro hnodup
    have h0 : (e.1 :: es.map Prod.fst).Nodup := by simpa using hnodup
    obtain ⟨hnotin, hnodups⟩ := List.nodup_cons.mp h0
    by_cases hk : e.1 = k
    · rw [List.eraseP_cons_of_pos (by simp [hk]), List.filter_cons_of_neg (by simp [hk])]
      symm
      rw [List.filter_eq_self]
      intro a ha
      simp only [Bool.not_eq_true', beq_eq_false_iff_ne, ne_eq]
      intro hEq
      apply hnotin
      rw [hk, ← hEq]
      exact List.mem_map_of_mem Prod.fst ha
    · rw [List.eraseP_cons_of_neg (by simp [hk]), List.filter_cons_of_pos (by simp [hk])]
      rw [ih hnodups]

theorem cleanup_foldl_filter (cutoff : Int) :
    ∀ (entries : List (String × SessionState)) (acc : SessionTable),
      (acc.map Prod.fst).Nodup →
      entries.foldl
        (fun acc e => if e.2.lastSeenAt < cutoff then closeSession acc e.1 else acc) acc =
      acc.filter
        (fun x => !(entries.any (fun e => decide (e.2.lastSeenAt < cutoff) && e.1 == x.1))) := by
  intro entries
  induction entries with
  | nil => intro acc _; simp
  | cons e es ih =>
    intro acc hnodup
    by_cases hstale : e.2.lastSeenAt < cutoff
    · rw [List.foldl_cons, if_pos hstale, closeSession_eq_eraseP,
        eraseP_key_eq_filter _ _ hnodup]
      have hsub : ((acc.filter (fun x => !(x.1 == e.1))).map Prod.fst).Nodup := by
        exact List.Nodup.sublist (List.Sublist.map _ (List.filter_sublist acc)) hnodup
      rw [ih _ hsub, List.filter_filter]
      apply List.filter_congr
      intro a _
      by_cases hae : a.1 = e.1
      · simp [hstale, hae, Bool.and_comm]
      · have hea : ¬e.1 = a.1 := fun hEq => hae hEq.symm
        have h1 : (a.1 == e.1) = false := beq_eq_false_iff_ne.mpr hae
        have h2 : (e.1 == a.1) = false := beq_eq_false_iff_ne.mpr hea
        simp [hstale, h1, h2, Bool.and_comm]
    · rw [List.foldl_cons, if_neg hstale, ih _ hnodup]
      apply List.filter_congr
      intro a _
      simp [hstale]

theorem cleanupStaleSessions_eq_filter (nowMs ttlMs : Int) (table : SessionTable)
    (hnodup : (table.map Prod.fst).Nodup) :
    cleanupStaleSessions nowMs ttlMs table =
      table.filter (fun e => !decide (e.2.lastSeenAt < nowMs - ttlMs)) := by
  unfold cleanupStaleSessions
  rw [cleanup_foldl_filter (nowMs - ttlMs) table table hnodup]
  apply List.filter_congr
  intro a ha
  by_cases hstale : a.2.lastSeenAt < nowMs - ttlMs
  · have hany : table.any
        (fun e => decide (e.2.lastSeenAt < nowMs - ttlMs) && e.1 == a.1) = true :=
      List.any_eq_true.mpr ⟨a, ha, by simp [hstale]⟩
    simp [hany, hstale]
  · have hany : table.any
        (fun e => decide (e.2.lastSeenAt < nowMs - ttlMs) && e.1 == a.1) = false := by
      rw [List.any_eq_false]
      intro e he
      by_cases hse : e.2.lastSeenAt < nowMs - ttlMs
      · have hne : e.1 ≠ a.1 := by
          intro hEq
          have heq2 : e = a := List.inj_on_of_nodup_map (by simpa using hnodup) he ha hEq
          rw [heq2] at hse
          exact hstale hse
        simp [beq_eq_false_iff_ne.mpr hne]
      · simp [hse]
    simp [hany, hstale]

/-- Claim C9: after a run of cleanupStaleSessions, no session whose
lastSeenAt predates the cutoff (now minus the TTL) remains in the table,
and every session within the TTL window survives; the close-failure flags
of the sessions are arbitrary, so a failing close on one stale session
does not prevent removal of the others (closeSession deletes before it
attempts the guarded close calls). -/
theorem cleanupStaleSessions_removes_stale_keeps_fresh
    (nowMs ttlMs : Int) (table : SessionTable)
    (hnodup : (table.map Prod.fst).Nodup) :
    (∀ e ∈ cleanupStaleSessions nowMs ttlMs table, ¬(e.2.lastSeenAt < nowMs - ttlMs)) ∧
      (∀ e ∈ table, ¬(e.2.lastSeenAt < nowMs - ttlMs) →
        e ∈ cleanupStaleSessions nowMs ttlMs table) ∧
      (∀ e ∈ table, e.2.lastSeenAt < nowMs - ttlMs →
        e ∉ cleanupStaleSessions nowMs ttlMs table) := by
  rw [cleanupStaleSessions_eq_filter nowMs ttlMs table hnodup]
  refine ⟨?_, ?_, ?_⟩
  · intro e he
    have := List.of_mem_filter he
    simpa using this
  · intro e he hfresh
    exact List.mem_filter.mpr ⟨he, by simpa using hfresh⟩
  · intro e _ hstale hmem
    have := List.of_mem_filter hmem
    simp [hstale] at this

/-- Witness for claim C9: a concrete table with one stale session whose
transport close throws, one stale session that closes cleanly, and one
fresh session; the sweep removes both stale sessions and keeps the fresh
one. -/
theorem cleanupStaleSessions_removes_stale_keeps_fresh_witness :
    (("a", SessionState.mk 0 true false) ∉
        cleanupStaleSessions 50 40
          [("a", SessionState.mk 0 true false), ("b", SessionState.mk 0 false false),
            ("c", SessionState.mk 100 false false)]) ∧
      (("b", SessionState.mk 0 false false) ∉
        cleanupStaleSessions 50 40
          [("a", SessionState.mk 0 true false), ("b", SessionState.mk 0 false false),
            ("c", SessionState.mk 100 false false)]) ∧
      (("c", SessionState.mk 100 false false) ∈
        cleanupStaleSessions 50 40
          [("a", SessionState.mk 0 true false), ("b", SessionState.mk 0 false false),
            ("c", SessionState.mk 100 false false)]) := by
  have h := cleanupStaleSessions_removes_stale_keeps_fresh 50 40
    [("a", SessionState.mk 0 true false), ("b", SessionState.mk 0 false false),
      ("c", SessionState.mk 100 false false)] (by decide)
  refine ⟨?_, ?_, ?_⟩
  · exact h.2.2 _ (by decide) (by decide)
  · exact h.2.2 _ (by decide) (by decide)
  · exact h.2.1 _ (by decide) (by decide)

/-! Lemmas about the retrying request executor. -/

theorem requestJsonApiGo_all_retryable {D : Type} (retryMax : Nat) :
    ∀ (outcomes : List (AttemptOutcome D)) (attempt : Nat) (s : Nat) (d : D),
      attempt + outcomes.length = retryMax + 1 →
      (∀ o ∈ outcomes, ∃ st doc,
        o = AttemptOutcome.httpFailure st doc ∧ isRetryableStatus st = true) →
      outcomes.getLast? = some (AttemptOutcome.httpFailure s d) →
      requestJsonApiGo retryMax attempt outcomes =
        some (Except.error ⟨some s, some d, true⟩) := by
  intro outcomes
  induction outcomes with
  | nil => intro attempt s d _ _ hlast; simp at hlast
  | cons o rest ih =>
    intro attempt s d hlen hall hlast
    obtain ⟨st, doc, rfl, hretry⟩ := hall o (List.mem_cons_self _ _)
    cases rest with
    | nil =>
      have hatt : attempt = retryMax := by
        simp only [List.length_cons, List.length_nil] at hlen
        omega
      have hst : st = s ∧ doc = d := by
        simp only [List.getLast?_singleton, Option.some.injEq] at hlast
        cases hlast
        exact ⟨rfl, rfl⟩
      obtain ⟨rfl, rfl⟩ := hst
      simp [requestJsonApiGo, hatt, hretry]
    | cons o2 rest2 =>
      have hlt : attempt < retryMax := by
        simp only [List.length_cons] at hlen
        omega
      have hstep : requestJsonApiGo retryMax attempt
          (AttemptOutcome.httpFailure st doc :: o2 :: rest2) =
          requestJsonApiGo retryMax (attempt + 1) (o2 :: rest2) := by
        simp [requestJsonApiGo, hretry, hlt]
      rw [hstep]
      apply ih (attempt + 1) s d
      · simp only [List.length_cons] at hlen ⊢
        omega
      · intro o ho
        exact hall o (List.mem_cons_of_mem _ ho)
      · rw [← hlast]
        exact List.getLast?_cons_cons.symm

/-- Claim C1: the request executor classifies 429/5xx responses as
retryable and retries while attempts remain (a 503 followed by a 200 with
retryMax at least 1 returns the 200 document); a non-429 4xx raises a
FlairApiErr with retryable = false immediately, independent of the rest of
the script (zero retries); and when every attempt through the budget fails
with a retryable status, the call raises a FlairApiErr carrying the last
status and retryable = true. -/
theorem requestJsonApi_retry_classification (D : Type) (retryMax : Nat) :
    (∀ (d1 d2 : D), 1 ≤ retryMax →
      requestJsonApi retryMax
          [AttemptOutcome.httpFailure 503 d1, AttemptOutcome.success d2] =
        some (Except.ok d2)) ∧
    (∀ (status : Nat) (doc : D) (rest : List (AttemptOutcome D)),
      400 ≤ status → status < 500 → status ≠ 429 →
      requestJsonApi retryMax (AttemptOutcome.httpFailure status doc :: rest) =
        some (Except.error ⟨some status, some doc, false⟩)) ∧
    (∀ (outcomes : List (AttemptOutcome D)) (s : Nat) (d : D),
      outcomes.length = retryMax + 1 →
      (∀ o ∈ outcomes, ∃ st doc,
        o = AttemptOutcome.httpFailure st doc ∧ isRetryableStatus st = true) →
      outcomes.getLast? = some (AttemptOutcome.httpFailure s d) →
      requestJsonApi retryMax outcomes = some (Except.error ⟨some s, some d, true⟩)) := by
  refine ⟨?_, ?_, ?_⟩
  · intro d1 d2 h
    have h0 : 0 < retryMax := h
    simp [requestJsonApi, requestJsonApiGo, isRetryableStatus, h0]
  · intro status doc rest h4 h5 h429
    have hr : isRetryableStatus status = false := by
      unfold isRetryableStatus
      rw [Bool.or_eq_false_iff]
      refine ⟨beq_eq_false_iff_ne.mpr h429, ?_⟩
      rw [decide_eq_false_iff_not]
      omega
    simp [requestJsonApi, requestJsonApiGo, hr]
  · intro outcomes s d hlen hall hlast
    exact requestJsonApiGo_all_retryable retryMax outcomes 0 s d (by omega) hall hlast

/-- Witness for claim C1 at concrete inputs: a 503 then 200 script with
retryMax = 1 yields the success document, a 400 fails immediately with
retryable = false even though a success was next in the script, and a
503-503 script with retryMax = 1 exhausts the budget and reports the last
status with retryable = true. -/
theorem requestJsonApi_retry_classification_witness :
    requestJsonApi 1 [AttemptOutcome.httpFailure 503 10, AttemptOutcome.success 7] =
        some (Except.ok 7) ∧
      requestJsonApi 1 [AttemptOutcome.httpFailure 400 5, AttemptOutcome.success 7] =
        some (Except.error ⟨some 400, some 5, false⟩) ∧
      requestJsonApi 1 [AttemptOutcome.httpFailure 503 1, AttemptOutcome.httpFailure 500 2] =
        some (Except.error ⟨some 500, some 2, true⟩) := by
  obtain ⟨h1, h2, h3⟩ := requestJsonApi_retry_classification Nat 1
  refine ⟨h1 10 7 (by decide), h2 400 5 [AttemptOutcome.success 7] (by decide) (by decide)
    (by decide), h3 [AttemptOutcome.httpFailure 503 1, AttemptOutcome.httpFailure 500 2] 500 2
    (by decide) ?_ (by decide)⟩
  intro o ho
  simp only [List.mem_cons, List.not_mem_nil, or_false] at ho
  rcases ho with rfl | rfl
  · exact ⟨503, 1, rfl, by decide⟩
  · exact ⟨500, 2, rfl, by decide⟩

/-! Lemmas about the paginated fetch engine. -/

/-- Claim C2: with maxItems = N > 0 the returned data has length at most N,
and exactly N whenever the pages reachable before the stopping conditions
contain at least N items (the raw collected data); a repeating next cursor
is stopped by the visited set after a single refetch, so the fetch
terminates (listResources is a total function); and an unbounded strictly
growing chain of next links is cut off by the 20-page ceiling. -/
theorem listResources_maxItems_bound (R : Type) (fetch : Nat → Page R)
    (firstPage : Page R) (N : Nat) (hN : 0 < N) :
    (listResources fetch firstPage (some N)).length ≤ N ∧
      (N ≤ (listResourcesRaw fetch firstPage (some N)).length →
        (listResources fetch firstPage (some N)).length = N) ∧
      (∀ L : Nat, firstPage.next = some L → (fetch L).next = some L →
        listResources fetch firstPage none = firstPage.data ++ (fetch L).data) ∧
      (∀ (mi : Option Nat) (data : List R) (visited : List Nat) (L : Nat),
        listResourcesGo fetch mi data visited 19 (some L) = data ∨
          listResourcesGo fetch mi data visited 19 (some L) = data ++ (fetch L).data) := by
  have hnorm : (match some N with
      | some m => if m > 0 then some m else none
      | none => none) = some N := by
    simp [hN]
  refine ⟨?_, ?_, ?_, ?_⟩
  · unfold listResources
    rw [hnorm]
    by_cases hlen : (listResourcesRaw fetch firstPage (some N)).length > N
    · simp [hlen, List.length_take]
    · simp only [hlen, if_false]
      omega
  · intro hge
    unfold listResources
    rw [hnorm]
    by_cases hlen : (listResourcesRaw fetch firstPage (some N)).length > N
    · simp only [hlen, if_true, List.length_take]
      omega
    · simp only [hlen, if_false]
      omega
  · intro L hfirst hfetch
    unfold listResources listResourcesRaw
    dsimp only
    rw [hfirst, listResourcesGo.eq_def]
    dsimp only [Option.elim]
    norm_num
    rw [hfetch, listResourcesGo.eq_def]
    dsimp only [Option.elim]
    norm_num
  · intro mi data visited L
    rw [listResourcesGo.eq_def]
    dsimp only
    by_cases hb : (mi.elim true fun m => decide (data.length < m)) = true
    · rw [if_pos hb]
      by_cases hv : L ∈ visited
      · rw [if_pos hv]
        left
        rfl
      · rw [if_neg hv]
        right
        dsimp only
        rw [dif_pos (by norm_num)]
    · rw [if_neg hb]
      left
      rfl

/-- Witness for claim C2: a three-item single page with maxItems = 2 is
truncated to exactly 2 items; a repeating next cursor stops after one
refetch giving first page plus refetched page; and at the 19th fetched page
the next iteration stops. -/
theorem listResources_maxItems_bound_witness :
    (listResources (fun _ => Page.mk ([] : List Nat) none)
        (Page.mk [10, 11, 12] none) (some 2)).length ≤ 2 ∧
      (listResources (fun _ => Page.mk ([] : List Nat) none)
        (Page.mk [10, 11, 12] none) (some 2)).length = 2 ∧
      listResources (fun _ => Page.mk [6] (some 0)) (Page.mk [5] (some 0)) none =
        [5] ++ [6] ∧
      (listResourcesGo (fun _ => Page.mk ([] : List Nat) none) none [1] [] 19 (some 0) = [1] ∨
        listResourcesGo (fun _ => Page.mk ([] : List Nat) none) none [1] [] 19 (some 0) =
          [1] ++ (Page.mk ([] : List Nat) none).data) := by
  obtain ⟨p1, p2, _, p4⟩ := listResources_maxItems_bound Nat
    (fun _ => Page.mk ([] : List Nat) none) (Page.mk [10, 11, 12] none) 2 (by decide)
  obtain ⟨_, _, p3, _⟩ := listResources_maxItems_bound Nat
    (fun _ => Page.mk [6] (some 0)) (Page.mk [5] (some 0)) 2 (by decide)
  refine ⟨p1, p2 ?_, p3 0 rfl rfl, p4 none [1] [] 0⟩
  unfold listResourcesRaw
  rw [listResourcesGo.eq_def]
  norm_num

/-! Lemmas about the token manager. -/

theorem arrivalsBurst_waiting (skewSec nowMs : Int) (r : Nat) :
    ∀ (m : Nat) (s : MgrState), tokenValid skewSec s.token nowMs = false →
      s.inflight = some r →
      arrivalsBurst skewSec nowMs m s = (s, List.replicate m (TokenObs.awaitRefresh r)) := by
  intro m
  induction m with
  | zero => intro s _ _; rfl
  | succ k ih =>
    intro s hvalid hin
    have hstep : getAccessTokenEnter skewSec nowMs s = (s, TokenObs.awaitRefresh r) := by
      unfold getAccessTokenEnter
      rw [if_neg (by simp [hvalid]), hin]
    simp only [arrivalsBurst, hstep]
    rw [ih s hvalid hin]
    simp [List.replicate_succ]

/-- Claim C3: when no valid token is cached and no refresh is in flight, a
burst of n concurrent callers entering getAccessToken issues exactly one
upstream token request; every caller awaits that same refresh, and hence
every caller receives the same resulting token value or the same failure
when the shared refresh settles. -/
theorem getAccessToken_coalesces_refreshes (skewSec nowMs : Int) (s0 : MgrState) (n : Nat)
    (hvalid : tokenValid skewSec s0.token nowMs = false) (hin : s0.inflight = none)
    (hn : 1 ≤ n) :
    (arrivalsBurst skewSec nowMs n s0).1.upstreamRequests = s0.upstreamRequests + 1 ∧
      (arrivalsBurst skewSec nowMs n s0).2 =
        List.replicate n (TokenObs.awaitRefresh s0.upstreamRequests) ∧
      (∀ (refreshOutcome : Except String TokenRecord),
        ∀ o ∈ (arrivalsBurst skewSec nowMs n s0).2,
          awaitResult refreshOutcome o = refreshOutcome.map (fun t => t.accessToken)) := by
  obtain ⟨m, rfl⟩ : ∃ m, n = m + 1 := ⟨n - 1, by omega⟩
  have hstep : getAccessTokenEnter skewSec nowMs s0 =
      (MgrState.mk s0.token (some s0.upstreamRequests) (s0.upstreamRequests + 1),
        TokenObs.awaitRefresh s0.upstreamRequests) := by
    unfold getAccessTokenEnter
    rw [if_neg (by simp [hvalid]), hin]
  have hburst : arrivalsBurst skewSec nowMs (m + 1) s0 =
      (MgrState.mk s0.token (some s0.upstreamRequests) (s0.upstreamRequests + 1),
        TokenObs.awaitRefresh s0.upstreamRequests ::
          List.replicate m (TokenObs.awaitRefresh s0.upstreamRequests)) := by
    simp only [arrivalsBurst, hstep]
    rw [arrivalsBurst_waiting skewSec nowMs s0.upstreamRequests m _ (by simpa using hvalid) rfl]
  rw [hburst]
  refine ⟨rfl, by simp [List.replicate_succ], ?_⟩
  intro refreshOutcome o ho
  simp only [List.mem_cons, List.mem_replicate] at ho
  rcases ho with rfl | ⟨_, rfl⟩ <;> rfl

/-- Witness for claim C3: three concurrent callers arriving with an empty
cache issue exactly one upstream request and all wait on refresh 0. -/
theorem getAccessToken_coalesces_refreshes_witness :
    (arrivalsBurst 60 1000 3 (MgrState.mk none none 0)).1.upstreamRequests = 0 + 1 ∧
      (arrivalsBurst 60 1000 3 (MgrState.mk none none 0)).2 =
        List.replicate 3 (TokenObs.awaitRefresh 0) := by
  have h := getAccessToken_coalesces_refreshes 60 1000 (MgrState.mk none none 0) 3
    (by decide) rfl (by decide)
  exact ⟨h.1, h.2.1⟩

/-- Claim C7: a cached token whose expiry minus the skew margin is still in
the future is returned without a refresh and without touching the state;
otherwise a refresh is performed; a failed refresh leaves the cached token
record unchanged and only propagates the error, and a subsequent call (at
the same or a later instant) attempts a fresh refresh again. -/
theorem getAccessToken_cache_and_refresh_failure (skewSec nowMs : Int)
    (s : AuthState) (refreshOutcome : Except String TokenRecord) :
    (∀ t : TokenRecord, s.token = some t → nowMs + skewSec * 1000 < t.expiresAtMs →
      getAccessTokenRun skewSec nowMs refreshOutcome s = (Except.ok t.accessToken, s, false)) ∧
      (tokenValid skewSec s.token nowMs = false →
        (getAccessTokenRun skewSec nowMs refreshOutcome s).2.2 = true) ∧
      (∀ e : String, tokenValid skewSec s.token nowMs = false →
        refreshOutcome = Except.error e →
        getAccessTokenRun skewSec nowMs refreshOutcome s = (Except.error e, s, true) ∧
          (∀ (nowMs2 : Int) (outcome2 : Except String TokenRecord), nowMs ≤ nowMs2 →
            (getAccessTokenRun skewSec nowMs2 outcome2
              (getAccessTokenRun skewSec nowMs refreshOutcome s).2.1).2.2 = true)) := by
  refine ⟨?_, ?_, ?_⟩
  · intro t ht hfresh
    have hv : tokenValid skewSec s.token nowMs = true := by
      rw [ht]
      simpa [tokenValid] using hfresh
    unfold getAccessTokenRun
    rw [if_pos (by simp [hv]), ht]
  · intro hv
    unfold getAccessTokenRun
    rw [if_neg (by simp [hv])]
    cases refreshOutcome <;> rfl
  · intro e hv herr
    have hrun : getAccessTokenRun skewSec nowMs refreshOutcome s = (Except.error e, s, true) := by
      unfold getAccessTokenRun
      rw [if_neg (by simp [hv]), herr]
    refine ⟨hrun, ?_⟩
    intro nowMs2 outcome2 hle
    rw [hrun]
    have hv2 : tokenValid skewSec s.token nowMs2 = false := by
      cases htok : s.token with
      | none => simp [tokenValid]
      | some t =>
        rw [htok] at hv
        simp only [tokenValid, decide_eq_false_iff_not, not_lt] at hv ⊢
        omega
    unfold getAccessTokenRun
    rw [if_neg (by simp [hv2])]
    cases outcome2 <;> rfl

/-- Witness for claim C7: a fresh cached token is returned as is with no
refresh; an expired cache triggers a refresh; a failing refresh leaves the
cache unchanged and the next call refreshes again. -/
theorem getAccessToken_cache_and_refresh_failure_witness :
    getAccessTokenRun 60 1000 (Except.error "boom")
        (AuthState.mk (some (TokenRecord.mk "tok" "bearer" 900000 0))) =
      (Except.ok "tok", AuthState.mk (some (TokenRecord.mk "tok" "bearer" 900000 0)), false) ∧
      getAccessTokenRun 60 1000 (Except.error "boom") (AuthState.mk none) =
        (Except.error "boom", AuthState.mk none, true) ∧
      (getAccessTokenRun 60 2000 (Except.ok (TokenRecord.mk "tok2" "bearer" 999999 2000))
          (getAccessTokenRun 60 1000 (Except.error "boom") (AuthState.mk none)).2.1).2.2 = true := by
  have h1 := (getAccessToken_cache_and_refresh_failure 60 1000
    (AuthState.mk (some (TokenRecord.mk "tok" "bearer" 900000 0))) (Except.error "boom")).1
    (TokenRecord.mk "tok" "bearer" 900000 0) rfl (by decide)
  have h2 := (getAccessToken_cache_and_refresh_failure 60 1000
    (AuthState.mk none) (Except.error "boom")).2.2 "boom" (by decide) rfl
  exact ⟨h1, h2.1, h2.2 2000 (Except.ok (TokenRecord.mk "tok2" "bearer" 999999 2000))
    (by decide)⟩

/-! Lemmas about the write-then-verify control loop. -/

theorem getLastD_cons {A : Type} (xs : List A) (v acc : A) :
    ((v :: xs).getLast?).getD acc = (xs.getLast?).getD v := by
  cases xs with
  | nil => rfl
  | cons y ys =>
    rw [List.getLast?_cons_cons]
    have hne : (y :: ys) ≠ [] := by simp
    obtain ⟨z, hz⟩ := Option.isSome_iff_exists.mp (List.getLast?_isSome.mpr hne)
    rw [hz]
    rfl

theorem lastNumericObservation_eq_getLast (l : List PollOutcome) :
    ∀ acc : Option Int,
      lastNumericObservation l acc = ((l.filterMap pollValue).getLast?).getD acc := by
  induction l with
  | nil => intro acc; rfl
  | cons o rest ih =>
    intro acc
    cases o with
    | resourceValue v =>
      simp only [lastNumericObservation, List.filterMap_cons, pollValue]
      rw [ih v, getLastD_cons]
    | pollFailure m =>
      simp only [lastNumericObservation, List.filterMap_cons, pollValue]
      exact ih acc

theorem getLastOr_cons {A : Type} (xs : List A) (v : A) (acc : Option A) :
    ((v :: xs).getLast?).or acc = (xs.getLast?).or (some v) := by
  cases xs with
  | nil => rfl
  | cons y ys =>
    rw [List.getLast?_cons_cons]
    have hne : (y :: ys) ≠ [] := by simp
    obtain ⟨z, hz⟩ := Option.isSome_iff_exists.mp (List.getLast?_isSome.mpr hne)
    rw [hz]
    rfl

theorem lastPollError_eq_getLast (l : List PollOutcome) :
    ∀ acc : Option String,
      lastPollError l acc = ((l.filterMap pollErrMsg).getLast?).or acc := by
  induction l with
  | nil => intro acc; rfl
  | cons o rest ih =>
    intro acc
    cases o with
    | resourceValue v =>
      simp only [lastPollError, List.filterMap_cons, pollErrMsg]
      exact ih acc
    | pollFailure m =>
      simp only [lastPollError, List.filterMap_cons, pollErrMsg]
      rw [ih (some m), getLastOr_cons]

theorem pollsList_cons (polls : Nat → PollOutcome) (a b : Nat) (hab : a ≤ b) :
    pollsList polls a b = polls a :: pollsList polls (a + 1) b := by
  unfold pollsList
  have h1 : b + 1 - a = (b - a) + 1 := by omega
  have h2 : b + 1 - (a + 1) = b - a := by omega
  rw [h1, h2, List.range_succ_eq_map, List.map_cons, List.map_map]
  congr 1
  apply List.map_congr_left
  intro j _
  simp only [Function.comp_apply, Nat.succ_eq_add_one]
  congr 1
  omega

theorem pollsList_empty (polls : Nat → PollOutcome) (b : Nat) :
    pollsList polls (b + 1) b = [] := by
  unfold pollsList
  simp

theorem ventVerifyGo_trace {C : Type} (polls : Nat → PollOutcome) (ventId : String)
    (target : Int) (attempts : Nat) (cr : C) :
    ∀ (fuel attempt : Nat) (lastActual : Option Int) (lastError : Option String),
      attempts + 1 - attempt = fuel → attempt ≤ attempts + 1 →
      (∀ o ∈ (ventVerifyGo polls ventId target attempts cr attempt lastActual lastError).2,
          o = VentOp.pollVent ventId) ∧
        (ventVerifyGo polls ventId target attempts cr attempt lastActual lastError).2.length
            + attempt =
          (ventVerifyGo polls ventId target attempts cr attempt lastActual
            lastError).1.attemptsUsed + 1 ∧
        (ventVerifyGo polls ventId target attempts cr attempt lastActual
          lastError).1.attemptsUsed ≤ attempts ∧
        (ventVerifyGo polls ventId target attempts cr attempt lastActual
          lastError).1.commandResponse = cr ∧
        (ventVerifyGo polls ventId target attempts cr attempt lastActual
          lastError).1.ventId = ventId ∧
        (ventVerifyGo polls ventId target attempts cr attempt lastActual
          lastError).1.expectedPercentOpen = target := by
  intro fuel
  induction fuel with
  | zero =>
    intro attempt lastActual lastError hfuel hle
    have hgt : ¬(attempt ≤ attempts) := by omega
    rw [ventVerifyGo.eq_def]
    rw [if_neg hgt]
    refine ⟨by simp, by simp; omega, by simp, rfl, rfl, rfl⟩
  | succ k ih =>
    intro attempt lastActual lastError hfuel hle
    have hle2 : attempt ≤ attempts := by omega
    rw [ventVerifyGo.eq_def]
    rw [if_pos hle2]
    cases hpoll : polls attempt with
    | resourceValue v =>
      cases v with
      | some a =>
        dsimp only
        by_cases heq : a = target
        · rw [if_pos heq]
          refine ⟨by simp, by simp [Nat.add_comm], by simpa using hle2, rfl, rfl, rfl⟩
        · rw [if_neg heq]
          obtain ⟨t1, t2, t3, t4, t5, t6⟩ :=
            ih (attempt + 1) (some a) lastError (by omega) (by omega)
          refine ⟨?_, ?_, t3, t4, t5, t6⟩
          · intro o ho
            simp only [List.mem_cons] at ho
            rcases ho with rfl | ho
            · rfl
            · exact t1 o ho
          · simp only [List.length_cons]
            omega
      | none =>
        dsimp only
        obtain ⟨t1, t2, t3, t4, t5, t6⟩ :=
          ih (attempt + 1) none lastError (by omega) (by omega)
        refine ⟨?_, ?_, t3, t4, t5, t6⟩
        · intro o ho
          simp only [List.mem_cons] at ho
          rcases ho with rfl | ho
          · rfl
          · exact t1 o ho
        · simp only [List.length_cons]
          omega
    | pollFailure m =>
      dsimp only
      obtain ⟨t1, t2, t3, t4, t5, t6⟩ :=
        ih (attempt + 1) lastActual (some m) (by omega) (by omega)
      refine ⟨?_, ?_, t3, t4, t5, t6⟩
      · intro o ho
        simp only [List.mem_cons] at ho
        rcases ho with rfl | ho
        · rfl
        · exact t1 o ho
      · simp only [List.length_cons]
        omega

theorem ventVerifyGo_first_success {C : Type} (polls : Nat → PollOutcome) (ventId : String)
    (target : Int) (attempts : Nat) (cr : C) (k : Nat)
    (hk : k ≤ attempts) (hsucc : polls k = PollOutcome.resourceValue (some target)) :
    ∀ (fuel attempt : Nat) (lastActual : Option Int) (lastError : Option String),
      k + 1 - attempt = fuel → attempt ≤ k →
      (∀ i, attempt ≤ i → i < k → polls i ≠ PollOutcome.resourceValue (some target)) →
      (ventVerifyGo polls ventId target attempts cr attempt lastActual lastError).1 =
        ⟨true, ventId, target, some target, k, cr, none⟩ := by
  intro fuel
  induction fuel with
  | zero => intro attempt _ _ hfuel hak _; omega
  | succ f ih =>
    intro attempt lastActual lastError hfuel hak hmiss
    have hle2 : attempt ≤ attempts := le_trans hak hk
    rw [ventVerifyGo.eq_def]
    rw [if_pos hle2]
    by_cases hattk : attempt = k
    · subst hattk
      rw [hsucc]
      simp
    · have hlt : attempt < k := lt_of_le_of_ne hak hattk
      have hne := hmiss attempt le_rfl hlt
      cases hpoll : polls attempt with
      | resourceValue v =>
        cases v with
        | some a =>
          dsimp only
          have hne2 : ¬(a = target) := by
            intro h
            rw [h] at hpoll
            exact hne hpoll
          rw [if_neg hne2]
          exact ih (attempt + 1) (some a) lastError (by omega) (by omega)
            (fun i h1 h2 => hmiss i (by omega) h2)
        | none =>
          dsimp only
          exact ih (attempt + 1) none lastError (by omega) (by omega)
            (fun i h1 h2 => hmiss i (by omega) h2)
      | pollFailure m =>
        dsimp only
        exact ih (attempt + 1) lastActual (some m) (by omega) (by omega)
          (fun i h1 h2 => hmiss i (by omega) h2)

theorem ventVerifyGo_exhausted {C : Type} (polls : Nat → PollOutcome) (ventId : String)
    (target : Int) (attempts : Nat) (cr : C) :
    ∀ (fuel attempt : Nat) (lastActual : Option Int) (lastError : Option String),
      attempts + 1 - attempt = fuel → attempt ≤ attempts + 1 →
      (∀ i, attempt ≤ i → i ≤ attempts → polls i ≠ PollOutcome.resourceValue (some target)) →
      (ventVerifyGo polls ventId target attempts cr attempt lastActual lastError).1 =
        ⟨false, ventId, target,
          lastNumericObservation (pollsList polls attempt attempts) lastActual, attempts, cr,
          some ((lastPollError (pollsList polls attempt attempts) lastError).getD
            ventVerifyDefaultError)⟩ := by
  intro fuel
  induction fuel with
  | zero =>
    intro attempt lastActual lastError hfuel hle _
    have hatt : attempt = attempts + 1 := by omega
    subst hatt
    rw [ventVerifyGo.eq_def]
    rw [if_neg (by omega)]
    rw [pollsList_empty]
    rfl
  | succ f ih =>
    intro attempt lastActual lastError hfuel hle hmiss
    have hle2 : attempt ≤ attempts := by omega
    rw [ventVerifyGo.eq_def]
    rw [if_pos hle2]
    rw [pollsList_cons polls attempt attempts hle2]
    cases hpoll : polls attempt with
    | resourceValue v =>
      cases v with
      | some a =>
        dsimp only
        have hne2 : ¬(a = target) := by
          intro h
          rw [h] at hpoll
          exact hmiss attempt le_rfl hle2 hpoll
        rw [if_neg hne2]
        rw [ih (attempt + 1) (some a) lastError (by omega) (by omega)
          (fun i h1 h2 => hmiss i (by omega) h2)]
        simp [lastNumericObservation, lastPollError]
      | none =>
        dsimp only
        rw [ih (attempt + 1) none lastError (by omega) (by omega)
          (fun i h1 h2 => hmiss i (by omega) h2)]
        simp [lastNumericObservation, lastPollError]
    | pollFailure m =>
      dsimp only
      rw [ih (attempt + 1) lastActual (some m) (by omega) (by omega)
        (fun i h1 h2 => hmiss i (by omega) h2)]
      simp [lastNumericObservation, lastPollError]

/-- Counterexample to claim C4 as stated: with polls observing a numeric 10
on poll 1 and a non-numeric percent-open on poll 2 (attempts = 2, commanded
value 30), a value was observed during the run, yet the exhausted result
reports actualPercentOpen = none rather than the last observed value 10,
because a successful poll without a numeric value resets the accumulator. -/
theorem setVentPercentOpenAndVerify_last_observed_counterexample :
    (setVentPercentOpenAndVerify
        (fun n => if n = 1 then PollOutcome.resourceValue (some 10)
          else PollOutcome.resourceValue none) "vent-1" 30 2 (0 : Nat)).1.actualPercentOpen =
        none ∧
      (fun n => if n = 1 then PollOutcome.resourceValue (some 10)
        else PollOutcome.resourceValue none) 1 = PollOutcome.resourceValue (some 10) ∧
      (setVentPercentOpenAndVerify
        (fun n => if n = 1 then PollOutcome.resourceValue (some 10)
          else PollOutcome.resourceValue none) "vent-1" 30 2 (0 : Nat)).1.ok = false := by
  have hmiss : ∀ i, 1 ≤ i → i ≤ 2 →
      (fun n => if n = 1 then PollOutcome.resourceValue (some 10)
        else PollOutcome.resourceValue none) i ≠ PollOutcome.resourceValue (some 30) := by
    intro i h1 h2 hcontra
    by_cases hi : i = 1
    · rw [hi] at hcontra
      simp at hcontra
    · simp only [if_neg hi] at hcontra
      simp at hcontra
  have h := ventVerifyGo_exhausted
    (fun n => if n = 1 then PollOutcome.resourceValue (some 10)
      else PollOutcome.resourceValue none) "vent-1" 30 2 (0 : Nat) 2 1 none none
    (by omega) (by omega) hmiss
  refine ⟨?_, rfl, ?_⟩
  · show (ventVerifyGo
      (fun n => if n = 1 then PollOutcome.resourceValue (some 10)
        else PollOutcome.resourceValue none) "vent-1" 30 2 (0 : Nat)
      1 none none).1.actualPercentOpen = none
    rw [h]
    decide
  · show (ventVerifyGo
      (fun n => if n = 1 then PollOutcome.resourceValue (some 10)
        else PollOutcome.resourceValue none) "vent-1" 30 2 (0 : Nat)
      1 none none).1.ok = false
    rw [h]

/-- Claim C4 (amended): the write is issued exactly once and the vent is
polled at most the attempt-budget many times (the poll trace length equals
attemptsUsed); when poll k is the first to observe the commanded value the
result is ok = true with attemptsUsed = k, carrying the write response;
when no poll observes the commanded value the result is ok = false with
attemptsUsed = attempts, the write response, the value of the most recent
successful poll (none when that poll saw no numeric value or when no poll
succeeded — not the last numeric value ever observed), and the message of
the last throwing poll (or the default message). -/
theorem setVentPercentOpenAndVerify_spec (C : Type) (polls : Nat → PollOutcome)
    (ventId : String) (target : Int) (attempts : Nat) (cr : C) :
    (setVentPercentOpenAndVerify polls ventId target attempts cr).2.filter
        VentOp.isWrite = [VentOp.writeVentState ventId target] ∧
      ((setVentPercentOpenAndVerify polls ventId target attempts cr).2.filter
          (fun o => !(o.isWrite))).length =
        (setVentPercentOpenAndVerify polls ventId target attempts cr).1.attemptsUsed ∧
      (setVentPercentOpenAndVerify polls ventId target attempts cr).1.attemptsUsed ≤
        attempts ∧
      (setVentPercentOpenAndVerify polls ventId target attempts cr).1.commandResponse = cr ∧
      (∀ k : Nat, 1 ≤ k → k ≤ attempts →
        polls k = PollOutcome.resourceValue (some target) →
        (∀ i, 1 ≤ i → i < k → polls i ≠ PollOutcome.resourceValue (some target)) →
        (setVentPercentOpenAndVerify polls ventId target attempts cr).1 =
          ⟨true, ventId, target, some target, k, cr, none⟩) ∧
      ((∀ i, 1 ≤ i → i ≤ attempts →
          polls i ≠ PollOutcome.resourceValue (some target)) →
        (setVentPercentOpenAndVerify polls ventId target attempts cr).1 =
          ⟨false, ventId, target,
            (((pollsList polls 1 attempts).filterMap pollValue).getLast?).getD none,
            attempts, cr,
            some ((((pollsList polls 1 attempts).filterMap pollErrMsg).getLast?).getD
              ventVerifyDefaultError)⟩) := by
  obtain ⟨t1, t2, t3, t4, _, _⟩ :=
    ventVerifyGo_trace polls ventId target attempts cr attempts 1 none none (by omega)
      (by omega)
  have hfst : (setVentPercentOpenAndVerify polls ventId target attempts cr).1 =
      (ventVerifyGo polls ventId target attempts cr 1 none none).1 := rfl
  have hsnd : (setVentPercentOpenAndVerify polls ventId target attempts cr).2 =
      VentOp.writeVentState ventId target ::
        (ventVerifyGo polls ventId target attempts cr 1 none none).2 := rfl
  refine ⟨?_, ?_, ?_, ?_, ?_, ?_⟩
  · rw [hsnd]
    have hpos : List.filter VentOp.isWrite
        (VentOp.writeVentState ventId target ::
          (ventVerifyGo polls ventId target attempts cr 1 none none).2) =
        VentOp.writeVentState ventId target ::
          (ventVerifyGo polls ventId target attempts cr 1 none none).2.filter
            VentOp.isWrite := rfl
    have hnil : (ventVerifyGo polls ventId target attempts cr 1 none none).2.filter
        VentOp.isWrite = [] := by
      rw [List.filter_eq_nil_iff]
      intro o ho
      rw [t1 o ho]
      simp [VentOp.isWrite]
    rw [hpos, hnil]
  · rw [hsnd, hfst]
    have hneg : List.filter (fun o => !(VentOp.isWrite o))
        (VentOp.writeVentState ventId target ::
          (ventVerifyGo polls ventId target attempts cr 1 none none).2) =
        (ventVerifyGo polls ventId target attempts cr 1 none none).2.filter
          (fun o => !(VentOp.isWrite o)) := rfl
    have hself : (ventVerifyGo polls ventId target attempts cr 1 none none).2.filter
        (fun o => !(VentOp.isWrite o)) =
        (ventVerifyGo polls ventId target attempts cr 1 none none).2 := by
      rw [List.filter_eq_self]
      intro o ho
      rw [t1 o ho]
      simp [VentOp.isWrite]
    rw [hneg, hself]
    omega
  · rw [hfst]
    exact t3
  · rw [hfst]
    exact t4
  · intro k hk1 hk2 hsucc hmiss
    rw [hfst]
    exact ventVerifyGo_first_success polls ventId target attempts cr k hk2 hsucc k 1 none
      none (by omega) (by omega) hmiss
  · intro hmiss
    rw [hfst]
    rw [ventVerifyGo_exhausted polls ventId target attempts cr attempts 1 none none
      (by omega) (by omega) hmiss]
    rw [lastNumericObservation_eq_getLast, lastPollError_eq_getLast, Option.or_none]

/-- Witness for claim C4 (amended) at concrete inputs: polls observing 10,
10, 30 with attempts = 4 and commanded value 30 verify on poll 3; polls
that always throw with attempts = 2 exhaust the budget reporting no
observation and the last error string. -/
theorem setVentPercentOpenAndVerify_spec_witness :
    (setVentPercentOpenAndVerify
        (fun n => if n ≤ 2 then PollOutcome.resourceValue (some 10)
          else PollOutcome.resourceValue (some 30)) "vent-1" 30 4 (0 : Nat)).1 =
        ⟨true, "vent-1", 30, some 30, 3, 0, none⟩ ∧
      (setVentPercentOpenAndVerify (fun _ => PollOutcome.pollFailure "nope")
          "vent-1" 30 2 (0 : Nat)).1 =
        ⟨false, "vent-1", 30, none, 2, 0, some "nope"⟩ := by
  constructor
  · have hA := (setVentPercentOpenAndVerify_spec Nat
      (fun n => if n ≤ 2 then PollOutcome.resourceValue (some 10)
        else PollOutcome.resourceValue (some 30)) "vent-1" 30 4 0).2.2.2.2.1
    apply hA 3 (by omega) (by omega) (by decide)
    intro i h1 h2
    have hi : i = 1 ∨ i = 2 := by omega
    rcases hi with rfl | rfl <;> decide
  · have hB := (setVentPercentOpenAndVerify_spec Nat
      (fun _ => PollOutcome.pollFailure "nope") "vent-1" 30 2 0).2.2.2.2.2
    rw [hB (by intro i _ _; decide)]
    rfl

/-! Lemmas about the temperature-based vent filter. -/

/-- Claim C5: for operator between, Fahrenheit bounds are converted via
(F - 32) * 5/9, and supplying the two bounds in reverse order yields
exactly the same result (same selected vents and same effective min/max)
as supplying them in ascending order. -/
theorem listVentsByRoomTemperature_between_swap (opts : TempFilterOptions)
    (rows : List VentRow) (hop : opts.temperatureOperator = some TempOp.between) :
    listVentsByRoomTemperature (swapBetweenBounds opts) rows =
      listVentsByRoomTemperature opts rows ∧
      ∀ f : ℚ, toCelsiusPref none (some f) = some ((f - 32) * (5 / 9)) := by
  refine ⟨?_, fun f => rfl⟩
  unfold listVentsByRoomTemperature
  simp only [swapBetweenBounds, hop]
  cases hmin : toCelsiusPref opts.minTempC opts.minTempF with
  | none =>
    cases hmax : toCelsiusPref opts.maxTempC opts.maxTempF with
    | none => rfl
    | some b => rfl
  | some a =>
    cases hmax : toCelsiusPref opts.maxTempC opts.maxTempF with
    | none => rfl
    | some b =>
      dsimp only
      have hbounds : (if b > a then (a, b) else (b, a)) =
          (if a > b then (b, a) else (a, b)) := by
        rcases lt_trichotomy a b with h | h | h
        · rw [if_pos h, if_neg (not_lt.mpr (le_of_lt h))]
        · subst h
          rfl
        · rw [if_neg (not_lt.mpr (le_of_lt h)), if_pos h]
      rw [hbounds]
      have hred : ((some TempOp.between).getD TempOp.lt) = TempOp.between := rfl
      simp only [if_pos hred]

/-- Witness for claim C5: min_temp_f = 75 with max_temp_f = 65 behaves
identically to min_temp_f = 65 with max_temp_f = 75 on a concrete pair of
rooms (the swapped options are literally those with the bounds
exchanged). -/
theorem listVentsByRoomTemperature_between_swap_witness :
    listVentsByRoomTemperature
        (swapBetweenBounds
          (TempFilterOptions.mk (some TempOp.between) none none none (some 75) none
            (some 65) none none none none))
        [VentRow.mk 1 (some 50) (some true) (some 18), VentRow.mk 2 (some 50) (some true) (some 30)] =
      listVentsByRoomTemperature
        (TempFilterOptions.mk (some TempOp.between) none none none (some 75) none
          (some 65) none none none none)
        [VentRow.mk 1 (some 50) (some true) (some 18), VentRow.mk 2 (some 50) (some true) (some 30)] :=
  (listVentsByRoomTemperature_between_swap
    (TempFilterOptions.mk (some TempOp.between) none none none (some 75) none
      (some 65) none none none none)
    [VentRow.mk 1 (some 50) (some true) (some 18), VentRow.mk 2 (some 50) (some true) (some 30)]
    rfl).1

/-- Claim C8: the filter fails fast with the validation error when between
lacks a bound in both units, or when a non-between operator (including the
defaulted lt) lacks a threshold in both units; the result is the error
independent of whatever rows the fetch would have produced, so no fetch
outcome can influence it. -/
theorem listVentsByRoomTemperature_validation (opts : TempFilterOptions)
    (rows rows2 : List VentRow) :
    (opts.temperatureOperator = some TempOp.between →
      ((opts.minTempC = none ∧ opts.minTempF = none) ∨
        (opts.maxTempC = none ∧ opts.maxTempF = none)) →
      listVentsByRoomTemperature opts rows = Except.error
          "For temperature_operator=between, provide min_temp_c/min_temp_f and max_temp_c/max_temp_f" ∧
        listVentsByRoomTemperature opts rows = listVentsByRoomTemperature opts rows2) ∧
      (opts.temperatureOperator.getD TempOp.lt ≠ TempOp.between →
        opts.thresholdTempC = none → opts.thresholdTempF = none →
        listVentsByRoomTemperature opts rows = Except.error
            "Provide threshold_temp_c or threshold_temp_f for temperature filtering" ∧
          listVentsByRoomTemperature opts rows = listVentsByRoomTemperature opts rows2) := by
  constructor
  · intro hop hmissing
    have herr : listVentsByRoomTemperature opts rows = Except.error
        "For temperature_operator=between, provide min_temp_c/min_temp_f and max_temp_c/max_temp_f" := by
      unfold listVentsByRoomTemperature
      simp only [hop]
      rcases hmissing with ⟨h1, h2⟩ | ⟨h1, h2⟩
      · rw [show toCelsiusPref opts.minTempC opts.minTempF = none by
          rw [h1, h2]
          rfl]
        cases toCelsiusPref opts.maxTempC opts.maxTempF <;> rfl
      · rw [show toCelsiusPref opts.maxTempC opts.maxTempF = none by
          rw [h1, h2]
          rfl]
        cases toCelsiusPref opts.minTempC opts.minTempF <;> rfl
    have herr2 : listVentsByRoomTemperature opts rows2 = Except.error
        "For temperature_operator=between, provide min_temp_c/min_temp_f and max_temp_c/max_temp_f" := by
      unfold listVentsByRoomTemperature
      simp only [hop]
      rcases hmissing with ⟨h1, h2⟩ | ⟨h1, h2⟩
      · rw [show toCelsiusPref opts.minTempC opts.minTempF = none by
          rw [h1, h2]
          rfl]
        cases toCelsiusPref opts.maxTempC opts.maxTempF <;> rfl
      · rw [show toCelsiusPref opts.maxTempC opts.maxTempF = none by
          rw [h1, h2]
          rfl]
        cases toCelsiusPref opts.minTempC opts.minTempF <;> rfl
    exact ⟨herr, herr.trans herr2.symm⟩
  · intro hop h1 h2
    have herr : ∀ rs : List VentRow, listVentsByRoomTemperature opts rs = Except.error
        "Provide threshold_temp_c or threshold_temp_f for temperature filtering" := by
      intro rs
      unfold listVentsByRoomTemperature
      rw [if_neg hop]
      rw [show toCelsiusPref opts.thresholdTempC opts.thresholdTempF = none by
        rw [h1, h2]
        rfl]
    exact ⟨herr rows, (herr rows).trans (herr rows2).symm⟩

/-- Witness for claim C8: between with only a max bound is rejected with
the bounds message on any rows, and lt with no threshold is rejected with
the threshold message on any rows. -/
theorem listVentsByRoomTemperature_validation_witness :
    (listVentsByRoomTemperature
        (TempFilterOptions.mk (some TempOp.between) none none none none (some 24) none
          none none none none)
        [VentRow.mk 1 (some 50) (some true) (some 18)] =
      Except.error
        "For temperature_operator=between, provide min_temp_c/min_temp_f and max_temp_c/max_temp_f") ∧
      (listVentsByRoomTemperature
          (TempFilterOptions.mk (some TempOp.lt) none none none none none none
            none none none none)
          [VentRow.mk 1 (some 50) (some true) (some 18)] =
        Except.error "Provide threshold_temp_c or threshold_temp_f for temperature filtering") := by
  constructor
  · exact ((listVentsByRoomTemperature_validation
      (TempFilterOptions.mk (some TempOp.between) none none none none (some 24) none
        none none none none)
      [VentRow.mk 1 (some 50) (some true) (some 18)] []).1 rfl (Or.inl ⟨rfl, rfl⟩)).1
  · exact ((listVentsByRoomTemperature_validation
      (TempFilterOptions.mk (some TempOp.lt) none none none none none none
        none none none none)
      [VentRow.mk 1 (some 50) (some true) (some 18)] []).2 (by decide) rfl rfl).1

/-- Claim C10: when both the Celsius and the Fahrenheit value of the same
bound are supplied, the Celsius value wins and the Fahrenheit value has no
effect: removing every shadowed Fahrenheit input leaves the result of
listVentsByRoomTemperature unchanged (in particular no error is raised on
account of the double supply), because toCelsiusPref returns the Celsius
value whenever it is present. -/
theorem listVentsByRoomTemperature_celsius_wins (opts : TempFilterOptions)
    (rows : List VentRow) :
    listVentsByRoomTemperature (eraseShadowedF opts) rows =
      listVentsByRoomTemperature opts rows ∧
      ∀ (c : ℚ) (f : Option ℚ), toCelsiusPref (some c) f = some c := by
  refine ⟨?_, fun c f => rfl⟩
  have hpair : ∀ (c f : Option ℚ),
      toCelsiusPref c (if c.isSome then none else f) = toCelsiusPref c f := by
    intro c f
    cases c <;> rfl
  unfold listVentsByRoomTemperature
  simp only [eraseShadowedF]
  rw [hpair opts.thresholdTempC opts.thresholdTempF,
    hpair opts.minTempC opts.minTempF, hpair opts.maxTempC opts.maxTempF]

end FlairMcp
